import Mathlib

/-!
# Verification of ast-grep's `Pattern` compiler and matcher

A shallow embedding of `crates/core/src/matcher/pattern.rs`.

The concrete syntax tree produced by the external tree-sitter parser is
modelled by `TSNode`.  External collaborators of the file (the `Root`
parser wrapper, `KindMatcher`, and the non-recursive matching functions of
the `match_tree` module) are not part of the analysed source; they are
modelled from the specification, and each such definition is marked
`Modelled from the spec:` in its doc comment.
-/

/-- Per-node data of a concrete syntax tree node: grammar kind id,
the tree-sitter "missing node" flag, the source text the node spans,
and its byte range. -/
structure NodeInfo where
  kindId : Nat
  isMissing : Bool
  text : String
  startByte : Nat
  endByte : Nat

/-- Modelled from the spec: a parsed concrete syntax tree node produced by
the grammar/parser collaborator (§6): kind id, child list, missing flag,
byte range and leaf text. -/
inductive TSNode where
  | mk (info : NodeInfo) (children : List TSNode)

/-- Node data accessor. -/
def TSNode.info : TSNode → NodeInfo
  | .mk i _ => i

/-- Children accessor (`Node::children` / `child(i)` in tree-sitter). -/
def TSNode.children : TSNode → List TSNode
  | .mk _ cs => cs

/-- Rust `Node::kind_id`. -/
def TSNode.kindId (n : TSNode) : Nat := n.info.kindId

/-- Rust `Node::is_missing`. -/
def TSNode.isMissing (n : TSNode) : Bool := n.info.isMissing

/-- Rust `Node::is_leaf`: a node with no children. -/
def TSNode.is_leaf (n : TSNode) : Bool := n.children.isEmpty

theorem TSNode.sizeOf_children_lt (n : TSNode) : sizeOf n.children < sizeOf n := by
  cases n with
  | mk i cs => simp [TSNode.children]

theorem sizeOf_lt_of_mem_children {c n : TSNode} (h : c ∈ n.children) :
    sizeOf c < sizeOf n :=
  lt_trans (List.sizeOf_lt_of_mem h) n.sizeOf_children_lt

/-- From `pattern.rs`, `is_single_node`: a node with exactly one child, or
with exactly two children the second of which is a missing node. -/
def is_single_node (n : TSNode) : Bool :=
  match n.children with
  | [_] => true
  | [_, c2] => c2.isMissing
  | _ => false

theorem is_single_node_children {n : TSNode} (h : is_single_node n = true) :
    (∃ c, n.children = [c]) ∨
      ∃ c c2, n.children = [c, c2] ∧ c2.isMissing = true := by
  unfold is_single_node at h
  rcases hcs : n.children with _ | ⟨c, _ | ⟨c2, _ | _⟩⟩ <;>
    simp [hcs] at h
  · simp
  · exact Or.inr ⟨c, c2, And.intro rfl h⟩

theorem sizeOf_headD_lt {n : TSNode} (h : is_single_node n = true) :
    sizeOf (n.children.headD n) < sizeOf n := by
  rcases is_single_node_children h with ⟨c, hc⟩ | ⟨c, c2, hc, _⟩ <;>
    exact hc ▸ sizeOf_lt_of_mem_children (by simp [hc])

/-- The descent loop in `Pattern::single_matcher`:
`while is_single_node(&node) { node = node.child(0).unwrap(); }`. -/
def single_target (n : TSNode) : TSNode :=
  if h : is_single_node n = true then single_target (n.children.headD n) else n
termination_by sizeOf n
decreasing_by exact sizeOf_headD_lt h

theorem single_target_eq_of_single (n : TSNode) (h : is_single_node n = true) :
    single_target n = single_target (n.children.headD n) := by
  rw [single_target]; simp [h]

theorem single_target_eq_of_not_single (n : TSNode) (h : is_single_node n = false) :
    single_target n = n := by
  rw [single_target]; simp [h]

theorem is_single_node_single_target (n : TSNode) :
    is_single_node (single_target n) = false := by
  by_cases h : is_single_node n = true
  · rw [single_target_eq_of_single n h]
    exact is_single_node_single_target (n.children.headD n)
  · rw [single_target_eq_of_not_single n (by simpa using h)]
    simpa using h
termination_by sizeOf n
decreasing_by exact sizeOf_headD_lt h

/-- Modelled from the spec: the metavariable environment entries (§3), a
mapping from metavariable name to the captured source text. -/
abbrev Env := List (String × String)

/-- Modelled from the spec: `extract_var_from_node` of the `meta_var`
module (not in the analysed source).  A pattern node denotes a
metavariable when its source text is a `$NAME` placeholder (§3). -/
def extract_var_from_node (n : TSNode) : Option String :=
  match n.info.text.data with
  | '$' :: rest => some ⟨rest⟩
  | _ => none

/-- Significant children of a node: missing/implicit nodes are treated as
absent by the matching rules (§4.2). -/
def significant (l : List TSNode) : List TSNode := l.filter (fun c => !c.isMissing)

theorem sizeOf_filter_le (p : TSNode → Bool) (l : List TSNode) :
    sizeOf (l.filter p) ≤ sizeOf l := by
  induction l with
  | nil => simp
  | cons a l ih => by_cases hp : p a <;> simp [List.filter, hp] <;> omega

theorem sizeOf_significant_lt (n : TSNode) : sizeOf (significant n.children) < sizeOf n :=
  lt_of_le_of_lt (sizeOf_filter_le _ _) n.sizeOf_children_lt

mutual
/-- Modelled from the spec: the structural comparison of §4.2, one
pattern node against one candidate node, threading the environment.  A
metavariable placeholder binds on first occurrence and demands textual
equality on a repeat occurrence; a literal node demands equal kind, then
equal text for leaves, or a child-for-child match (missing children
skipped on both sides) for internal nodes. -/
def matchNodeAux (goal cand : TSNode) (env : Env) : Option Env :=
  match extract_var_from_node goal with
  | some name =>
    match env.lookup name with
    | some bound => if bound = cand.info.text then some env else none
    | none => some ((name, cand.info.text) :: env)
  | none =>
    if goal.kindId = cand.kindId then
      match hg : significant goal.children with
      | [] =>
        if (significant cand.children).isEmpty && goal.info.text == cand.info.text then
          some env
        else none
      | g :: gs => matchListAux (g :: gs) (significant cand.children) env
    else none
termination_by sizeOf goal
decreasing_by simp only [← hg]; exact sizeOf_significant_lt goal

/-- Modelled from the spec: matching corresponding child lists (§4.2);
the lists must have the same length and match pairwise in order. -/
def matchListAux (goals cands : List TSNode) (env : Env) : Option Env :=
  match goals, cands with
  | [], [] => some env
  | g :: gs, c :: cs =>
    match matchNodeAux g c env with
    | some env2 => matchListAux gs cs env2
    | none => none
  | _, _ => none
termination_by sizeOf goals
decreasing_by all_goals (simp; try omega)
end

/-- A candidate node handle offered to the matcher (the `Node` of the
`Root`/`Node` collaborator): the node's subtree together with its
following siblings (`Node::next_all`). -/
structure SgNode where
  tree : TSNode
  next : List TSNode

/-- Modelled from the spec: `match_node_non_recursive` of the
`match_tree` module (not in the analysed source).  Returns the matched
node on success; a failed attempt leaves the environment unchanged
(§4.2: no partial-success state is retained). -/
def match_node_non_recursive (goal : TSNode) (cand : SgNode) (env : Env) :
    Option SgNode × Env :=
  match matchNodeAux goal cand.tree env with
  | some env2 => (some cand, env2)
  | none => (none, env)

/-- Modelled from the spec: sequential sibling matching of §4.2
(`Multiple` style): every pattern child must find a corresponding
candidate in order; trailing unmatched candidates are ignored; a shorter
candidate sequence fails. -/
def matchSeq (goals cands : List TSNode) (env : Env) : Option Env :=
  match goals, cands with
  | [], _ => some env
  | g :: gs, c :: cs =>
    match matchNodeAux g c env with
    | some env2 => matchSeq gs cs env2
    | none => none
  | _ :: _, [] => none

/-- Modelled from the spec: `match_nodes_non_recursive` of the
`match_tree` module; like `matchSeq` but with the no-residue guarantee on
the environment. -/
def match_nodes_non_recursive (goals cands : List TSNode) (env : Env) : Option Unit × Env :=
  match matchSeq goals cands env with
  | some env2 => (some (), env2)
  | none => (none, env)

/-- Modelled from the spec: `match_end_non_recursive` of the
`match_tree` module, the boundary-only variant of §4.2: the byte offset
of the match's end when the one-shot match succeeds. -/
def match_end_non_recursive (goal : TSNode) (cand : SgNode) : Option Nat :=
  if (matchNodeAux goal cand.tree []).isSome then some cand.tree.info.endByte else none

/-- Modelled from the spec: boundary-only variant of the sibling-sequence
match: the end byte of the last candidate consumed (0 when the goal list
is empty). -/
def matchSeqEnd (goals cands : List TSNode) (env : Env) (acc : Nat) : Option Nat :=
  match goals, cands with
  | [], _ => some acc
  | g :: gs, c :: cs =>
    match matchNodeAux g c env with
    | some env2 => matchSeqEnd gs cs env2 c.info.endByte
    | none => none
  | _ :: _, [] => none

/-- Modelled from the spec: `match_multi_nodes_end_non_recursive` of the
`match_tree` module. -/
def match_multi_nodes_end_non_recursive (goals cands : List TSNode) : Option Nat :=
  matchSeqEnd goals cands [] 0

/-- Modelled from the spec: the language collaborator of §6 -
pre-processing, the grammar parser, and kind-name lookup. -/
structure SgLanguage where
  pre_process_pattern : String → String
  parse : String → Option TSNode
  kind_for_name : String → Option Nat

/-- Modelled from the spec: error of the Kind Matcher collaborator (§7,
`InvalidKindSelector`). -/
inductive KindMatcherError where
  | invalidKind (selector : String)

/-- Modelled from the spec: the Kind Matcher collaborator (§2, §6) -
matches a node purely by its grammar kind. -/
structure KindMatcher where
  kind : Nat

/-- Modelled from the spec: `KindMatcher::try_new` resolves a kind name
through the language's grammar. -/
def KindMatcher.try_new (selector : String) (lang : SgLanguage) :
    Except KindMatcherError KindMatcher :=
  match lang.kind_for_name selector with
  | some k => .ok ⟨k⟩
  | none => .error (.invalidKind selector)

/-- Modelled from the spec: kind-only node test. -/
def KindMatcher.matches (km : KindMatcher) (n : TSNode) : Bool :=
  n.kindId == km.kind

/-- Modelled from the spec: the Kind Matcher's pruning oracle - the set
of kinds it can possibly match (§4.3). -/
def KindMatcher.potential_kinds (km : KindMatcher) : Option (Finset Nat) :=
  some {km.kind}

mutual
/-- Modelled from the spec: `Node::find` - the first node of the subtree
(preorder, the node itself first) accepted by the matcher; §3 `Selector`:
"the first descendant of the context's parsed tree whose kind matches
the selector". -/
def TSNode.find (n : TSNode) (km : KindMatcher) : Option TSNode :=
  if km.matches n then some n else TSNode.findList n.children km
termination_by sizeOf n
decreasing_by exact n.sizeOf_children_lt

/-- Preorder search of a list of subtrees. -/
def TSNode.findList (l : List TSNode) (km : KindMatcher) : Option TSNode :=
  match l with
  | [] => none
  | c :: cs =>
    match TSNode.find c km with
    | some r => some r
    | none => TSNode.findList cs km
termination_by sizeOf l
decreasing_by all_goals (simp; try omega)
end

/-- From `pattern.rs`, `PatternStyle`: how the AST node to match is found,
assuming the pattern text's root is `Program`. -/
inductive PatternStyle where
  | Single
  | Multiple
  | Selector (km : KindMatcher)

/-- From `pattern.rs`, `Pattern`: the parsed tree of the pattern source
plus its style. -/
structure Pattern where
  root : TSNode
  style : PatternStyle

/-- From `pattern.rs`, `PatternError`.  Error payloads carry the same
strings the Rust variants embed. -/
inductive PatternError where
  | TSParse
  | NoContent (src : String)
  | MultipleNode (src : String)
  | InvalidKind (e : KindMatcherError)
  | NoSelectorInContext (context : String) (selector : String)

/-- Rust `Pattern::try_new`: pre-process, parse, reject an empty tree as
`NoContent`, classify a single effective node as `Single`, and reject
anything else as `MultipleNode` (the `Multiple` construction is
commented out in the source). -/
def Pattern.try_new (src : String) (lang : SgLanguage) : Except PatternError Pattern :=
  let processed := lang.pre_process_pattern src
  match lang.parse processed with
  | none => .error .TSParse
  | some root =>
    if root.children.length = 0 then .error (.NoContent src)
    else if is_single_node root then .ok ⟨root, .Single⟩
    else .error (.MultipleNode src)

/-- Rust `Pattern::new`: `try_new` followed by `unwrap`; the panic on an error
value is modelled as `none`. -/
def Pattern.new (src : String) (lang : SgLanguage) : Option Pattern :=
  match Pattern.try_new src lang with
  | .ok p => some p
  | .error _ => none

/-- Rust `Pattern::contextual`: pre-process and parse the context, build the
kind matcher for the selector, fail with `NoSelectorInContext` when the
context tree has no node of that kind, otherwise store the context tree
and the kind matcher. -/
def Pattern.contextual (context selector : String) (lang : SgLanguage) :
    Except PatternError Pattern :=
  let processed := lang.pre_process_pattern context
  match lang.parse processed with
  | none => .error .TSParse
  | some root =>
    match KindMatcher.try_new selector lang with
    | .error e => .error (.InvalidKind e)
    | .ok km =>
      if (root.find km).isNone then .error (.NoSelectorInContext context selector)
      else .ok ⟨root, .Selector km⟩

/-- Rust `Pattern::single_matcher`: descend from the root through single-node
wrappers. -/
def Pattern.single_matcher (p : Pattern) : TSNode :=
  single_target p.root

/-- Rust `Pattern::kind_matcher`: re-resolve the selector in the stored
context tree.  The `expect("contextual match should succeed")` panic
branch is modelled by a junk default (the root itself). -/
def Pattern.kind_matcher (p : Pattern) (km : KindMatcher) : TSNode :=
  (p.root.find km).getD p.root

/-- Rust `Pattern::multi_node_candidates`: the node itself followed by all its
subsequent siblings. -/
def Pattern.multi_node_candidates (node : SgNode) : List TSNode :=
  node.tree :: node.next

/-- Rust `Matcher::match_node_with_env` for `Pattern`: dispatch on the style
to the non-recursive matching primitives, threading the environment (the
`&mut env` of the Rust signature is explicit state passing here). -/
def Pattern.match_node_with_env (p : Pattern) (node : SgNode) (env : Env) :
    Option SgNode × Env :=
  match p.style with
  | .Single => match_node_non_recursive p.single_matcher node env
  | .Multiple =>
    match match_nodes_non_recursive p.root.children (Pattern.multi_node_candidates node)
        env with
    | (r, env2) => (r.map (fun _ => node), env2)
  | .Selector km => match_node_non_recursive (p.kind_matcher km) node env

/-- Rust `Matcher::potential_kinds` for `Pattern`: the selector's kinds for
`Selector`, the first top-level child's kind for `Multiple` (the
`expect("must have content")` panic modelled by a junk default), and for
`Single` either `none` on a bare leaf metavariable or the effective
single node's kind. -/
def Pattern.potential_kinds (p : Pattern) : Option (Finset Nat) :=
  match p.style with
  | .Selector km => km.potential_kinds
  | .Multiple => some {(p.root.children.headD p.root).kindId}
  | .Single =>
    let matcher := p.single_matcher
    if matcher.is_leaf && (extract_var_from_node matcher).isSome then none
    else some {matcher.kindId}

/-- The end-offset computation of `Matcher::get_match_len`, per style. -/
def Pattern.match_end (p : Pattern) (node : SgNode) : Option Nat :=
  match p.style with
  | .Single => match_end_non_recursive p.single_matcher node
  | .Selector km => match_end_non_recursive (p.kind_matcher km) node
  | .Multiple =>
    match_multi_nodes_end_non_recursive p.root.children (Pattern.multi_node_candidates node)

/-- Rust `Matcher::get_match_len` for `Pattern`: the distance from the
candidate's start byte to the match's end offset, `none` when the match
fails. -/
def Pattern.get_match_len (p : Pattern) (node : SgNode) : Option Nat :=
  let start := node.tree.info.startByte
  (p.match_end node).map (fun e => e - start)


/-! ## A concrete toy grammar

Small concrete trees in the shape tree-sitter produces for a TSX-like
grammar, used to instantiate the theorems below.  Kind ids: 1 `program`,
2 `expression_statement`, 3 `identifier`, 4 `number`, 5 `class_declaration`,
6 punctuation, 7 `public_field_definition`, 8 `=`, 9 `class` keyword. -/

/-- A leaf node. -/
def leafN (k : Nat) (t : String) (s e : Nat) : TSNode := .mk ⟨k, false, t, s, e⟩ []

/-- An internal node. -/
def nodeN (k : Nat) (t : String) (s e : Nat) (cs : List TSNode) : TSNode :=
  .mk ⟨k, false, t, s, e⟩ cs

/-- A zero-width missing token inserted by error recovery. -/
def missTok (s : Nat) : TSNode := .mk ⟨6, true, "", s, s⟩ []

/-- The identifier leaf `a`. -/
def leafA : TSNode := leafN 3 "a" 0 1

/-- The statement form of `a`: the parser supplies a missing `;`. -/
def stmtA : TSNode := nodeN 2 "a" 0 1 [leafA, missTok 1]

/-- Parse tree of `"a"`: a program with the single statement `a`. -/
def treeA : TSNode := nodeN 1 "a" 0 1 [stmtA]

/-- A statement `x;` spanning bytes `s..s+2` with identifier text `t`. -/
def stmtOf (t : String) (s : Nat) : TSNode :=
  nodeN 2 (t ++ ";") s (s + 2) [leafN 3 t s (s + 1), leafN 6 ";" (s + 1) (s + 2)]

/-- Parse tree of `"a;b;c;"`: a program with three statements. -/
def treeABC : TSNode :=
  nodeN 1 "a;b;c;" 0 6 [stmtOf "a" 0, stmtOf "b" 2, stmtOf "c" 4]

/-- Parse tree of `""`: a program with no children. -/
def treeEmpty : TSNode := nodeN 1 "" 0 0 []

/-- The metavariable leaf `$A`. -/
def leafVar : TSNode := leafN 3 "$A" 0 2

/-- Parse tree of `"$A"`: a program with one statement holding the bare
metavariable. -/
def treeVar : TSNode := nodeN 1 "$A" 0 2 [nodeN 2 "$A" 0 2 [leafVar, missTok 2]]

/-- The `public_field_definition` node of the class context tree. -/
def fieldNode : TSNode :=
  nodeN 7 "b = 123" 10 17 [leafN 3 "b" 10 11, leafN 8 "=" 12 13, leafN 4 "123" 14 17]

/-- The `class_declaration` node of the class context tree. -/
def classNode : TSNode :=
  nodeN 5 "class A { b = 123 }" 0 19 [leafN 9 "class" 0 5, leafN 3 "A" 6 7, fieldNode]

/-- Parse tree of `"class A { b = 123 }"`. -/
def treeClass : TSNode := nodeN 1 "class A { b = 123 }" 0 19 [classNode]

/-- The toy parser: a fixed map from the pattern sources used below to
their parse trees. -/
def toyParse (s : String) : Option TSNode :=
  if s = "a" then some treeA
  else if s = "a;b;c;" then some treeABC
  else if s = "" then some treeEmpty
  else if s = "$A" then some treeVar
  else if s = "class A { b = 123 }" then some treeClass
  else none

/-- The toy language: identity pre-processing, the toy parser, and a
kind-name table with `public_field_definition` and `statement`. -/
def ToyLang : SgLanguage where
  pre_process_pattern := id
  parse := toyParse
  kind_for_name := fun s =>
    if s = "public_field_definition" then some 7
    else if s = "statement" then some 2
    else none

/-- The compiled pattern for source `"a"`. -/
def patA : Pattern := ⟨treeA, .Single⟩

/-- A candidate handle around the identifier leaf `b`, with no following
siblings. -/
def nodeB : SgNode := ⟨leafN 3 "b" 0 1, []⟩

theorem single_target_treeA : single_target treeA = leafA := by
  rw [single_target_eq_of_single treeA rfl]
  show single_target stmtA = leafA
  rw [single_target_eq_of_single stmtA rfl]
  show single_target leafA = leafA
  exact single_target_eq_of_not_single leafA rfl

theorem single_target_treeVar : single_target treeVar = leafVar := by
  rw [single_target_eq_of_single treeVar rfl]
  show single_target (nodeN 2 "$A" 0 2 [leafVar, missTok 2]) = leafVar
  rw [single_target_eq_of_single (nodeN 2 "$A" 0 2 [leafVar, missTok 2]) rfl]
  show single_target leafVar = leafVar
  exact single_target_eq_of_not_single leafVar rfl

theorem matchNodeAux_a_b : matchNodeAux leafA nodeB.tree [("X", "y")] = none := by
  simp only [matchNodeAux]
  decide

/-! ## The claims -/

/-- C1: with a parsed, non-empty pattern tree whose root is not a single
effective node, `try_new` fails with `MultipleNode` carrying the original
source; and no successfully compiled pattern ever has the `Multiple`
style. -/
theorem try_new_rejects_multiple (src : String) (lang : SgLanguage) :
    (∀ root, lang.parse (lang.pre_process_pattern src) = some root →
      root.children.length ≠ 0 → is_single_node root = false →
      Pattern.try_new src lang = .error (.MultipleNode src)) ∧
    ∀ p, Pattern.try_new src lang = .ok p → p.style = .Single := by
  constructor
  · intro root hp h0 hs
    simp [Pattern.try_new, hp, h0, hs]
  · intro p hp
    simp only [Pattern.try_new] at hp
    cases hq : lang.parse (lang.pre_process_pattern src) with
    | none => rw [hq] at hp; exact absurd hp (by simp)
    | some root =>
      rw [hq] at hp
      by_cases h0 : root.children.length = 0
      · simp [h0] at hp
      · by_cases hs : is_single_node root
        · simp [h0, hs] at hp
          rw [← hp]
        · simp [h0, hs] at hp

/-- C1 witness: the multi-statement input `a;b;c;` is rejected with
`MultipleNode` carrying the source text. -/
theorem try_new_rejects_multiple_witness :
    Pattern.try_new "a;b;c;" ToyLang = .error (.MultipleNode "a;b;c;") :=
  (try_new_rejects_multiple "a;b;c;" ToyLang).1 treeABC rfl (by decide) rfl

/-- C7: a parsed pattern tree with zero top-level children makes
`try_new` fail with `NoContent` carrying the original source text. -/
theorem try_new_no_content (src : String) (lang : SgLanguage) (root : TSNode)
    (hp : lang.parse (lang.pre_process_pattern src) = some root)
    (h0 : root.children.length = 0) :
    Pattern.try_new src lang = .error (.NoContent src) := by
  simp [Pattern.try_new, hp, h0]

/-- C7 witness: the empty source parses to a childless program and is
rejected with `NoContent`. -/
theorem try_new_no_content_witness :
    Pattern.try_new "" ToyLang = .error (.NoContent "") :=
  try_new_no_content "" ToyLang treeEmpty rfl rfl

/-- C8: compilation is deterministic: two calls of `try_new` on the same
`(source, language)` pair agree, and any two patterns they return are
structurally identical (same tree, same style). -/
theorem try_new_deterministic (src : String) (lang : SgLanguage) :
    Pattern.try_new src lang = Pattern.try_new src lang ∧
    ∀ p q, Pattern.try_new src lang = .ok p → Pattern.try_new src lang = .ok q →
      p.root = q.root ∧ p.style = q.style := by
  refine ⟨rfl, ?_⟩
  intro p q hp hq
  rw [hp] at hq
  cases hq
  exact ⟨rfl, rfl⟩

/-- C8 witness: the two compilations of `"a"` produce the same tree and
style. -/
theorem try_new_deterministic_witness :
    patA.root = patA.root ∧ patA.style = patA.style :=
  (try_new_deterministic "a" ToyLang).2 patA patA rfl rfl

/-- C10: `new` is `try_new` followed by `unwrap`: it returns the same
pattern on success and panics (modelled as `none`) on every error. -/
theorem new_unwraps_try_new (src : String) (lang : SgLanguage) :
    (∀ p, Pattern.try_new src lang = .ok p → Pattern.new src lang = some p) ∧
    ∀ e, Pattern.try_new src lang = .error e → Pattern.new src lang = none := by
  constructor
  · intro p hp; simp [Pattern.new, hp]
  · intro e hp; simp [Pattern.new, hp]

/-- C10 witness: `new` returns the pattern `try_new` built for `"a"` and
panics on the `MultipleNode` error for `"a;b;c;"`. -/
theorem new_unwraps_try_new_witness :
    Pattern.new "a" ToyLang = some patA ∧ Pattern.new "a;b;c;" ToyLang = none :=
  ⟨(new_unwraps_try_new "a" ToyLang).1 patA rfl,
   (new_unwraps_try_new "a;b;c;" ToyLang).2 (.MultipleNode "a;b;c;") rfl⟩

/-- The `j`-fold descent into the first child (the junk default is returned
when a node has no child, which never happens along a wrapper chain). -/
def iterFirst : Nat → TSNode → TSNode
  | 0, n => n
  | k + 1, n => iterFirst k (n.children.headD n)

theorem single_target_iter (n : TSNode) :
    ∃ k, (∀ j, j < k → is_single_node (iterFirst j n) = true) ∧
      single_target n = iterFirst k n := by
  by_cases h : is_single_node n = true
  · obtain ⟨k, hall, heq⟩ := single_target_iter (n.children.headD n)
    refine ⟨k + 1, ?_, ?_⟩
    · intro j hj
      cases j with
      | zero => exact h
      | succ j' => exact hall j' (Nat.lt_of_succ_lt_succ hj)
    · rw [single_target_eq_of_single n h, heq]
      rfl
  · refine ⟨0, ?_, single_target_eq_of_not_single n (by simpa using h)⟩
    intro j hj
    omega
termination_by sizeOf n
decreasing_by exact sizeOf_headD_lt h

/-- C2: the effective target of a `Single` pattern is reached from the
pattern root by repeatedly taking the first child of a wrapper node
(exactly one child, or two with the second missing), and the node reached
is itself not a wrapper. -/
theorem single_matcher_descends (p : Pattern) :
    ∃ k, (∀ j, j < k → is_single_node (iterFirst j p.root) = true) ∧
      p.single_matcher = iterFirst k p.root ∧
      is_single_node p.single_matcher = false := by
  obtain ⟨k, hall, heq⟩ := single_target_iter p.root
  exact ⟨k, hall, heq, is_single_node_single_target p.root⟩

/-- C2 witness: the descent for the compiled pattern `"a"`. -/
theorem single_matcher_descends_witness :
    ∃ k, (∀ j, j < k → is_single_node (iterFirst j patA.root) = true) ∧
      patA.single_matcher = iterFirst k patA.root ∧
      is_single_node patA.single_matcher = false :=
  single_matcher_descends patA

/-- C3: `potential_kinds` is `none` exactly when the effective matching
concern is a bare wildcard metavariable, and otherwise is the singleton
of the effective kind: the effective single node's kind for `Single`, the
kind matcher's single kind for `Selector`, and the first top-level
child's kind for `Multiple`. -/
theorem potential_kinds_spec (p : Pattern) :
    (p.style = .Single →
      ((p.single_matcher.is_leaf && (extract_var_from_node p.single_matcher).isSome) = true →
        p.potential_kinds = none) ∧
      ((p.single_matcher.is_leaf && (extract_var_from_node p.single_matcher).isSome) = false →
        p.potential_kinds = some {p.single_matcher.kindId})) ∧
    (∀ km, p.style = .Selector km →
      p.potential_kinds = km.potential_kinds ∧ km.potential_kinds = some {km.kind}) ∧
    ∀ c cs, p.style = .Multiple → p.root.children = c :: cs →
      p.potential_kinds = some {c.kindId} := by
  refine ⟨?_, ?_, ?_⟩
  · intro hs
    constructor <;> intro hc <;> simp [Pattern.potential_kinds, hs, hc]
  · intro km hs
    exact ⟨by simp [Pattern.potential_kinds, hs], rfl⟩
  · intro c cs hs hcs
    simp [Pattern.potential_kinds, hs, hcs]

/-- C3 witness: the bare metavariable pattern `"$A"` reports no kind
restriction, while the concrete pattern `"a"` reports the singleton of
its effective node's kind (the identifier kind 3). -/
theorem potential_kinds_spec_witness :
    (Pattern.mk treeVar .Single).potential_kinds = none ∧
    patA.potential_kinds = some {3} := by
  constructor
  · refine ((potential_kinds_spec ⟨treeVar, .Single⟩).1 rfl).1 ?_
    show ((single_target treeVar).is_leaf
      && (extract_var_from_node (single_target treeVar)).isSome) = true
    rw [single_target_treeVar]
    decide
  · have h := ((potential_kinds_spec patA).1 rfl).2 (by
      show ((single_target treeA).is_leaf
        && (extract_var_from_node (single_target treeA)).isSome) = false
      rw [single_target_treeA]
      decide)
    rw [h]
    show some {(single_target treeA).kindId} = some {3}
    rw [single_target_treeA]
    rfl

/-- Containment in a tree: `Occurs m n` holds when `m` is `n` itself or a
node somewhere inside a subtree of `n`. -/
inductive Occurs : TSNode → TSNode → Prop where
  | refl (n : TSNode) : Occurs n n
  | child {m c n : TSNode} : c ∈ n.children → Occurs m c → Occurs m n

theorem findList_isSome_iff (l : List TSNode) (km : KindMatcher) :
    (TSNode.findList l km).isSome = true ↔ ∃ c ∈ l, (c.find km).isSome = true := by
  induction l with
  | nil => simp [TSNode.findList]
  | cons c cs ih =>
    rw [TSNode.findList]
    cases hf : c.find km with
    | some r =>
      simp only [Option.isSome_some]
      constructor
      · intro _
        exact ⟨c, by simp, by simp [hf]⟩
      · intro _
        trivial
    | none => simp [hf, ih]

theorem find_isSome_iff (n : TSNode) (km : KindMatcher) :
    (n.find km).isSome = true ↔ ∃ m, Occurs m n ∧ km.matches m = true := by
  rw [TSNode.find]
  by_cases hm : km.matches n = true
  · simp only [hm, if_true, Option.isSome_some, true_iff]
    exact ⟨n, .refl n, hm⟩
  · simp only [hm, if_false, Bool.false_eq_true]
    rw [findList_isSome_iff]
    constructor
    · rintro ⟨c, hc, hcf⟩
      obtain ⟨m, ho, hkm⟩ := (find_isSome_iff c km).mp hcf
      exact ⟨m, .child hc ho, hkm⟩
    · rintro ⟨m, ho, hkm⟩
      cases ho with
      | refl => exact absurd hkm hm
      | child hc ho2 => exact ⟨_, hc, (find_isSome_iff _ km).mpr ⟨m, ho2, hkm⟩⟩
termination_by sizeOf n
decreasing_by all_goals exact sizeOf_lt_of_mem_children (by assumption)

/-- C4: with a parsed context and a valid selector kind, contextual
compilation fails with `NoSelectorInContext` (carrying the context and
selector strings) exactly when no node of the context tree has the
selector's kind; on success the pattern stores the context tree and the
kind matcher. -/
theorem contextual_spec (context selector : String) (lang : SgLanguage)
    (root : TSNode) (k : Nat)
    (hp : lang.parse (lang.pre_process_pattern context) = some root)
    (hk : lang.kind_for_name selector = some k) :
    (Pattern.contextual context selector lang =
        .error (.NoSelectorInContext context selector) ↔
      ¬∃ m, Occurs m root ∧ (KindMatcher.mk k).matches m = true) ∧
    ((∃ m, Occurs m root ∧ (KindMatcher.mk k).matches m = true) →
      Pattern.contextual context selector lang = .ok ⟨root, .Selector ⟨k⟩⟩) := by
  have hkm : KindMatcher.try_new selector lang = .ok ⟨k⟩ := by
    simp [KindMatcher.try_new, hk]
  have hiff := find_isSome_iff root ⟨k⟩
  cases hf : root.find ⟨k⟩ with
  | none =>
    rw [hf] at hiff
    simp only [Option.isSome_none, Bool.false_eq_true, false_iff] at hiff
    constructor
    · simp only [Pattern.contextual, hp, hkm, hf]
      simpa using hiff
    · intro hex
      exact absurd hex hiff
  | some m0 =>
    rw [hf] at hiff
    simp only [Option.isSome_some, true_iff] at hiff
    constructor
    · constructor
      · intro habs
        simp [Pattern.contextual, hp, hkm, hf] at habs
      · intro hne
        exact absurd hiff hne
    · intro _
      simp [Pattern.contextual, hp, hkm, hf]

/-- C4 witness: the class context with the `public_field_definition`
selector, instantiated over the toy language. -/
theorem contextual_spec_witness :
    (Pattern.contextual "class A { b = 123 }" "public_field_definition" ToyLang =
        .error (.NoSelectorInContext "class A { b = 123 }" "public_field_definition") ↔
      ¬∃ m, Occurs m treeClass ∧ (KindMatcher.mk 7).matches m = true) ∧
    ((∃ m, Occurs m treeClass ∧ (KindMatcher.mk 7).matches m = true) →
      Pattern.contextual "class A { b = 123 }" "public_field_definition" ToyLang =
        .ok ⟨treeClass, .Selector ⟨7⟩⟩) :=
  contextual_spec "class A { b = 123 }" "public_field_definition" ToyLang treeClass 7 rfl rfl

theorem find_treeClass : treeClass.find ⟨7⟩ = some fieldNode := by
  simp [TSNode.find, TSNode.findList, treeClass, classNode, fieldNode, nodeN, leafN,
    KindMatcher.matches, TSNode.kindId, TSNode.info, TSNode.children]

theorem contextual_toy :
    Pattern.contextual "class A { b = 123 }" "public_field_definition" ToyLang =
      .ok ⟨treeClass, .Selector ⟨7⟩⟩ := by
  simp only [Pattern.contextual]
  rw [show ToyLang.parse (ToyLang.pre_process_pattern "class A { b = 123 }") =
    some treeClass from rfl]
  rw [show KindMatcher.try_new "public_field_definition" ToyLang = .ok ⟨7⟩ from rfl]
  simp [find_treeClass]

/-- C9: every pattern built by contextual compilation re-resolves its
selector successfully against the stored context tree: `find` returns a
node, so the `expect("contextual match should succeed")` branch in
`kind_matcher` is unreachable and `kind_matcher` returns that node. -/
theorem contextual_resolution_succeeds (context selector : String) (lang : SgLanguage)
    (p : Pattern) (h : Pattern.contextual context selector lang = .ok p) :
    ∃ km, p.style = .Selector km ∧
      ∃ m, p.root.find km = some m ∧ p.kind_matcher km = m := by
  simp only [Pattern.contextual] at h
  cases hq : lang.parse (lang.pre_process_pattern context) with
  | none => rw [hq] at h; exact absurd h (by simp)
  | some root =>
    rw [hq] at h
    cases htk : KindMatcher.try_new selector lang with
    | error e => rw [htk] at h; exact absurd h (by simp)
    | ok km =>
      rw [htk] at h
      cases hf : root.find km with
      | none => simp [hf] at h
      | some m =>
        simp only [hf, Option.isNone_some, Bool.false_eq_true, if_false] at h
        cases h
        exact ⟨km, rfl, m, hf, by simp [Pattern.kind_matcher, hf]⟩

/-- C9 witness: the toy contextual pattern re-resolves its selector to
the `public_field_definition` node. -/
theorem contextual_resolution_succeeds_witness :
    ∃ km, (Pattern.mk treeClass (.Selector ⟨7⟩)).style = .Selector km ∧
      ∃ m, (Pattern.mk treeClass (.Selector ⟨7⟩)).root.find km = some m ∧
        (Pattern.mk treeClass (.Selector ⟨7⟩)).kind_matcher km = m :=
  contextual_resolution_succeeds "class A { b = 123 }" "public_field_definition" ToyLang
    ⟨treeClass, .Selector ⟨7⟩⟩ contextual_toy

theorem mnnr_none_env (g : TSNode) (c : SgNode) (env : Env)
    (h : (match_node_non_recursive g c env).1 = none) :
    (match_node_non_recursive g c env).2 = env := by
  unfold match_node_non_recursive at h ⊢
  cases hm : matchNodeAux g c.tree env with
  | some e2 => rw [hm] at h; simp at h
  | none => rfl

theorem mnsr_none_env (goals cands : List TSNode) (env : Env)
    (h : (match_nodes_non_recursive goals cands env).1 = none) :
    (match_nodes_non_recursive goals cands env).2 = env := by
  unfold match_nodes_non_recursive at h ⊢
  cases hm : matchSeq goals cands env with
  | some e2 => rw [hm] at h; simp at h
  | none => rfl

/-- C5: a failed match attempt leaves the caller's environment exactly as
it was — no partial metavariable bindings leak out of
`match_node_with_env`. -/
theorem match_failure_preserves_env (p : Pattern) (node : SgNode) (env : Env)
    (h : (p.match_node_with_env node env).1 = none) :
    (p.match_node_with_env node env).2 = env := by
  cases hs : p.style with
  | Single =>
    simp only [Pattern.match_node_with_env, hs] at h ⊢
    exact mnnr_none_env _ _ _ h
  | Selector km =>
    simp only [Pattern.match_node_with_env, hs] at h ⊢
    exact mnnr_none_env _ _ _ h
  | Multiple =>
    simp only [Pattern.match_node_with_env, hs] at h ⊢
    rcases hm : match_nodes_non_recursive p.root.children
        (Pattern.multi_node_candidates node) env with ⟨r, env2⟩
    cases r with
    | some u => rw [hm] at h; simp at h
    | none =>
      have h2 := mnsr_none_env p.root.children (Pattern.multi_node_candidates node) env
        (by rw [hm])
      rw [hm] at h2
      simpa using h2

/-- C5 witness: matching the pattern `"a"` against the identifier `b`
fails and returns the pre-existing environment untouched. -/
theorem match_failure_preserves_env_witness :
    (patA.match_node_with_env nodeB [("X", "y")]).2 = [("X", "y")] :=
  match_failure_preserves_env patA nodeB [("X", "y")] (by
    show (match_node_non_recursive patA.single_matcher nodeB [("X", "y")]).1 = none
    rw [show patA.single_matcher = leafA from single_target_treeA]
    simp [match_node_non_recursive, matchNodeAux_a_b])

theorem matchSeqEnd_isSome (goals cands : List TSNode) (env : Env) (acc : Nat) :
    (matchSeqEnd goals cands env acc).isSome = (matchSeq goals cands env).isSome := by
  induction goals generalizing cands env acc with
  | nil => simp [matchSeqEnd, matchSeq]
  | cons g gs ih =>
    cases cands with
    | nil => simp [matchSeqEnd, matchSeq]
    | cons c cs =>
      simp only [matchSeqEnd, matchSeq]
      cases hm : matchNodeAux g c env with
      | some e2 => simpa using ih cs e2 c.info.endByte
      | none => simp

/-- C6: `get_match_len` returns `none` exactly when matching the pattern
against the candidate (with a fresh environment) fails, and on success it
returns the distance from the candidate's start byte to the match's end
offset. -/
theorem get_match_len_spec (p : Pattern) (node : SgNode) :
    (p.get_match_len node = none ↔ (p.match_node_with_env node []).1 = none) ∧
    ∀ e, p.match_end node = some e →
      p.get_match_len node = some (e - node.tree.info.startByte) := by
  constructor
  · cases hs : p.style with
    | Single =>
      simp only [Pattern.get_match_len, Pattern.match_end, Pattern.match_node_with_env, hs,
        match_end_non_recursive, match_node_non_recursive]
      cases hm : matchNodeAux p.single_matcher node.tree [] <;> simp [hm]
    | Selector km =>
      simp only [Pattern.get_match_len, Pattern.match_end, Pattern.match_node_with_env, hs,
        match_end_non_recursive, match_node_non_recursive]
      cases hm : matchNodeAux (p.kind_matcher km) node.tree [] <;> simp [hm]
    | Multiple =>
      simp only [Pattern.get_match_len, Pattern.match_end, Pattern.match_node_with_env, hs,
        match_multi_nodes_end_non_recursive, match_nodes_non_recursive]
      have hse := matchSeqEnd_isSome p.root.children (Pattern.multi_node_candidates node) [] 0
      cases hm : matchSeq p.root.children (Pattern.multi_node_candidates node) [] with
      | some e2 =>
        rw [hm] at hse
        simp only [Option.isSome_some] at hse
        obtain ⟨v, hv⟩ := Option.isSome_iff_exists.mp hse
        simp [hm, hv]
      | none =>
        rw [hm] at hse
        simp only [Option.isSome_none] at hse
        have : matchSeqEnd p.root.children (Pattern.multi_node_candidates node) [] 0 = none :=
          Option.not_isSome_iff_eq_none.mp (by simp [hse])
        simp [hm, this]
  · intro e he
    simp [Pattern.get_match_len, he]

/-- C6 witness: the specification instantiated for the pattern `"a"` and
the identifier candidate `b`. -/
theorem get_match_len_spec_witness :
    (patA.get_match_len nodeB = none ↔ (patA.match_node_with_env nodeB []).1 = none) ∧
    ∀ e, patA.match_end nodeB = some e →
      patA.get_match_len nodeB = some (e - nodeB.tree.info.startByte) :=
  get_match_len_spec patA nodeB
